import Mathlib

/-!
Verification of the chatlas conversational orchestration engine.

This file embeds the turn/content data model, the chat-state operations of
`src/chatlas/_chat.py` (get_turns, get_last_turn, set_turns, system_prompt,
_submit_turns, _chat_impl, _invoke_tools, _invoke_tool, extract_data), and the
OpenAI provider conversion functions of `src/chatlas/_openai.py` (stream_text,
stream_merge_chunks, stream_turn, value_turn, _as_turn), and proves the
behavioural properties stated in the specification against them.

The files `_content.py`, `_turn.py` and `_merge.py` of the repository are not
available; the Content/Turn data model and the chunk deep-merge are modelled
from the specification (sections 3 and 4.1) and marked as such in their doc
comments.  Everything else is translated directly from the Python source.
-/

namespace Chatlas

/-- Modelled from the spec: the "arbitrary structured value" carried by
`Json` content, tool-call arguments and tool results (a JSON-like value;
`src/chatlas/_content.py` is not available). -/
inductive JVal where
  | null : JVal
  | bool (b : Bool) : JVal
  | num (n : Int) : JVal
  | str (s : String) : JVal
  | arr (elems : List JVal) : JVal
  | obj (fields : List (String × JVal)) : JVal

/-- Modelled from the spec: the closed set of content variants of section 3
(`src/chatlas/_content.py` is not available).  Field names follow the spec:
Text, Json, ImageRemote, ImageInline, ToolRequest, ToolResult. -/
inductive Content where
  | text (text : String) : Content
  | json (value : JVal) : Content
  | imageRemote (url : String) : Content
  | imageInline (contentType : String) (data : String) : Content
  | toolRequest (id : String) (name : String) (arguments : JVal) : Content
  | toolResult (id : String) (value : Option JVal) (error : Option String) : Content

/-- Modelled from the spec: a Turn is a role plus an ordered sequence of
Content, with optional token counts and finish reason
(`src/chatlas/_turn.py` is not available).  The opaque raw provider payload
(`json=`) is omitted as it is unobservable debugging data. -/
structure Turn where
  role : String
  contents : List Content
  tokens : Option (Nat × Nat) := none
  finish_reason : Option String := none

/-- Concatenation of a list of strings, in order. -/
def catStrings : List String → String
  | [] => ""
  | s :: rest => s ++ catStrings rest

/-- Modelled from the spec: `Turn.text`, the human-visible text of a turn,
is the concatenation of its Text contents (used by the `system_prompt`
getter, `if turn.text:` in `_submit_turns`, and export; `src/chatlas/_turn.py`
is not available). -/
def Turn.text (t : Turn) : String :=
  catStrings (t.contents.filterMap fun c =>
    match c with
    | Content.text s => some s
    | _ => none)

/-- Modelled from the spec: `Turn("system", value)` as constructed by the
`system_prompt` setter — a system turn holding the prompt as a single Text
content and no metadata. -/
def systemTurn (value : String) : Turn :=
  { role := "system", contents := [Content.text value] }

/-- The invocable function of a registered tool.  Raising an exception is modelled
by `Except.error` carrying the stringified exception; this also covers
argument-binding failures of the Python call. -/
def ToolFunc : Type := JVal → Except String JVal

/-- The mutable state of a `Chat` object: its turn history and tool registry
(`Chat.__init__`, src/chatlas/_chat.py lines 73-95). -/
structure ChatState where
  turns : List Turn
  tools : List (String × ToolFunc)

/-- `self._tools.get(x.name, None)` — look up a registered tool by name. -/
def lookupTool (tools : List (String × ToolFunc)) (name : String) : Option ToolFunc :=
  (tools.find? fun p => p.1 == name).map Prod.snd

/-- `Chat.get_turns` (src/chatlas/_chat.py lines 97-116): all turns, with the
leading system turn dropped unless `include_system_prompt` is set. -/
def get_turns (c : ChatState) (include_system_prompt : Bool) : List Turn :=
  match c.turns with
  | [] => []
  | t :: rest =>
    if !include_system_prompt && t.role == "system" then rest else t :: rest

/-- `Chat.get_last_turn` (src/chatlas/_chat.py lines 118-134): the most recent
turn with the given role. -/
def get_last_turn (c : ChatState) (role : String) : Option Turn :=
  c.turns.reverse.find? fun t => t.role == role

/-- The ValueError message raised by `Chat.set_turns` for the first turn with
role "system" (src/chatlas/_chat.py lines 150-155); the message cites the
offending index. -/
def set_turns_msg (idx : Nat) : String :=
  "Turn " ++ toString idx ++ " has a role system, which is not allowed. " ++
  "The system prompt must be set separately using the system_prompt property."

/-- `Chat.set_turns` (src/chatlas/_chat.py lines 136-156).  The source checks
`any(x.role == "system" for x in turns)` and then takes the first such index;
this is exactly a first-index search.  Returns the state after the call plus
the raised error, if any: on error the turn list is untouched (the assignment
on line 156 is never reached). -/
def set_turns (c : ChatState) (ts : List Turn) : ChatState × Option String :=
  match ts.findIdx? (fun t => t.role == "system") with
  | some idx => (c, some (set_turns_msg idx))
  | none => ({ c with turns := ts }, none)

/-- `Chat.system_prompt` getter (src/chatlas/_chat.py lines 158-170): the text
of the leading system turn, if there is one. -/
def system_prompt (c : ChatState) : Option String :=
  match c.turns with
  | t :: _ => if t.role == "system" then some t.text else none
  | [] => none

/-- `Chat.system_prompt` setter (src/chatlas/_chat.py lines 172-177): pop a
leading system turn if present, then insert a fresh system turn at the front
when the new value is not None. -/
def set_system_prompt (c : ChatState) (value : Option String) : ChatState :=
  let ts :=
    match c.turns with
    | t :: rest => if t.role == "system" then rest else t :: rest
    | [] => []
  match value with
  | some v => { c with turns := systemTurn v :: ts }
  | none => { c with turns := ts }

/-- An OpenAI tool-call function payload: `call.function` with a name and the
raw JSON argument string (src/chatlas/_openai.py, `_as_turn`). -/
structure FunctionCall where
  name : String
  arguments : String

/-- An OpenAI tool call: id plus optional function payload. -/
structure ToolCall where
  id : String
  function : Option FunctionCall

/-- An OpenAI chat-completion message: optional text content and optional
tool calls. -/
structure Message where
  content : Option String
  tool_calls : Option (List ToolCall)

/-- One choice of an OpenAI chat completion. -/
structure Choice where
  message : Message
  finish_reason : Option String

/-- An OpenAI chat completion: its choices and optional token usage
(prompt_tokens, completion_tokens). -/
structure ChatCompletion where
  choices : List Choice
  usage : Option (Nat × Nat)

/-- The argument parsing of `_as_turn` (src/chatlas/_openai.py lines 470-479):
`args = json.loads(func.arguments) if func.arguments else {}`, with a
JSONDecodeError caught and the arguments left as `{}` after a warning.
`decode` stands for `json.loads`, with `none` for a decode error. -/
def parseToolArgs (decode : String → Option JVal) (arguments : String) : JVal :=
  if arguments = "" then JVal.obj []
  else
    match decode arguments with
    | some v => v
    | none => JVal.obj []

/-- One iteration of the tool-call loop in `_as_turn`
(src/chatlas/_openai.py lines 465-487): a call without a function payload is
skipped (`continue`); otherwise a ContentToolRequest is built. -/
def toolCallContent (decode : String → Option JVal) (call : ToolCall) : Option Content :=
  match call.function with
  | none => none
  | some func =>
    some (Content.toolRequest call.id func.name (parseToolArgs decode func.arguments))

/-- `OpenAIProvider._as_turn` (src/chatlas/_openai.py lines 451-508): convert a
completion into an assistant Turn.  `none` models an uncaught exception:
indexing `choices[0]` on an empty choice list, or `json.loads` failing on the
structured-output content when `has_data_model` is set (that call is not
wrapped in a try).  The `x_groq` token fallback is omitted: the typed
completion model has no such extra attribute. -/
def as_turn (decode : String → Option JVal) (completion : ChatCompletion)
    (has_data_model : Bool) : Option Turn :=
  match completion.choices with
  | [] => none
  | choice :: _ =>
    let message := choice.message
    let base : Option (List Content) :=
      match message.content with
      | none => some []
      | some c =>
        if has_data_model then
          match decode c with
          | some v => some [Content.json v]
          | none => none
        else some [Content.text c]
    match base with
    | none => none
    | some contents =>
      let toolContents :=
        match message.tool_calls with
        | none => []
        | some calls => calls.filterMap (toolCallContent decode)
      let tokens :=
        match completion.usage with
        | none => (0, 0)
        | some u => u
      some { role := "assistant"
             contents := contents ++ toolContents
             tokens := some tokens
             finish_reason := choice.finish_reason }

/-- `OpenAIProvider.value_turn` (src/chatlas/_openai.py lines 349-350). -/
def value_turn (decode : String → Option JVal) (completion : ChatCompletion)
    (has_data_model : Bool) : Option Turn :=
  as_turn decode completion has_data_model

/-- The delta of one OpenAI stream chunk choice. -/
structure Delta where
  content : Option String
  tool_calls : Option (List ToolCall)

/-- One choice of an OpenAI stream chunk. -/
structure ChunkChoice where
  delta : Delta
  finish_reason : Option String

/-- An OpenAI stream chunk (also serving as its own dict form, the
accumulated result of `stream_merge_chunks`). -/
structure ChatCompletionChunk where
  choices : List ChunkChoice
  usage : Option (Nat × Nat)

/-- Modelled from the spec (section 4.1; `src/chatlas/_merge.py` is not
available): merging string values at keys carrying incrementally-delivered
text concatenates the two strings; an absent side leaves the other. -/
def mergeTextField : Option String → Option String → Option String
  | a, none => a
  | none, some b => some b
  | some a, some b => some (a ++ b)

/-- Modelled from the spec (section 4.1): scalar fields are overwritten by the
later chunk when it carries a value; an absent value leaves the accumulated
one. -/
def mergeScalar {α : Type} : Option α → Option α → Option α
  | a, none => a
  | _, some b => some b

/-- Modelled from the spec (section 4.1): nested optional structures are
merged recursively; an absent side leaves the other. -/
def mergeOptWith {α : Type} (f : α → α → α) : Option α → Option α → Option α
  | a, none => a
  | none, some b => some b
  | some a, some b => some (f a b)

/-- Modelled from the spec (section 4.1): lists are merged positionally at
matching indices, and entries present on only one side are appended. -/
def mergeZip {α : Type} (f : α → α → α) : List α → List α → List α
  | xs, [] => xs
  | [], y :: ys => y :: ys
  | x :: xs, y :: ys => f x y :: mergeZip f xs ys

/-- Modelled from the spec (section 4.1): merge of a tool-call function
payload — the argument fragments are incrementally-delivered text and are
concatenated; the name is a scalar overwritten by the later chunk. -/
def mergeFunctionCall (a b : FunctionCall) : FunctionCall :=
  { name := b.name, arguments := a.arguments ++ b.arguments }

/-- Modelled from the spec (section 4.1): merge of one tool call. -/
def mergeToolCall (a b : ToolCall) : ToolCall :=
  { id := b.id, function := mergeOptWith mergeFunctionCall a.function b.function }

/-- Modelled from the spec (section 4.1): merge of one chunk delta — the
content field carries incrementally-delivered text. -/
def mergeDelta (a b : Delta) : Delta :=
  { content := mergeTextField a.content b.content
    tool_calls := mergeOptWith (mergeZip mergeToolCall) a.tool_calls b.tool_calls }

/-- Modelled from the spec (section 4.1): merge of one chunk choice. -/
def mergeChunkChoice (a b : ChunkChoice) : ChunkChoice :=
  { delta := mergeDelta a.delta b.delta
    finish_reason := mergeScalar a.finish_reason b.finish_reason }

/-- Modelled from the spec (section 4.1): `merge_dicts`, the recursive deep
merge of two chunk dicts (`src/chatlas/_merge.py` is not available). -/
def merge_dicts (a b : ChatCompletionChunk) : ChatCompletionChunk :=
  { choices := mergeZip mergeChunkChoice a.choices b.choices
    usage := mergeScalar a.usage b.usage }

/-- `OpenAIProvider.stream_merge_chunks` (src/chatlas/_openai.py lines
332-336): the first chunk is its own dict form; later waves are deep-merged. -/
def stream_merge_chunks (completion : Option ChatCompletionChunk)
    (chunk : ChatCompletionChunk) : ChatCompletionChunk :=
  match completion with
  | none => chunk
  | some acc => merge_dicts acc chunk

/-- `OpenAIProvider.stream_text` (src/chatlas/_openai.py lines 327-330): the
text delta of a chunk, or none when the chunk has no choices. -/
def stream_text (chunk : ChatCompletionChunk) : Option String :=
  match chunk.choices with
  | [] => none
  | ch :: _ => ch.delta.content

/-- `OpenAIProvider.stream_turn` (src/chatlas/_openai.py lines 338-344): move
the delta of the accumulated first choice into the message slot and convert via
`_as_turn`.  `none` models the uncaught exception on a `None` accumulation or
an empty choice list. -/
def stream_turn (decode : String → Option JVal)
    (completion : Option ChatCompletionChunk) (has_data_model : Bool) : Option Turn :=
  match completion with
  | none => none
  | some acc =>
    match acc.choices with
    | [] => none
    | ch :: rest =>
      as_turn decode
        { choices :=
            { message := { content := ch.delta.content, tool_calls := ch.delta.tool_calls }
              finish_reason := ch.finish_reason } ::
            rest.map (fun c =>
              { message := { content := none, tool_calls := none }
                finish_reason := c.finish_reason })
          usage := acc.usage } has_data_model

/-- The tail of the non-streaming branch of `Chat._submit_turns`
(src/chatlas/_chat.py lines 956-975): convert the completion via `value_turn`,
yield `turn.text` when it is truthy (non-empty), and extend the history with
`[user_turn, turn]`.  The result pairs the chat state after the call with the
outcome: `Except.error` models an uncaught exception, in which case the
extend on line 975 is never reached and the state is unchanged. -/
def submit_value_round (decode : String → Option JVal) (completion : ChatCompletion)
    (c : ChatState) (user_turn : Turn) (has_data_model : Bool) :
    ChatState × Except String (Turn × List String) :=
  match value_turn decode completion has_data_model with
  | none => (c, Except.error "invalid completion")
  | some turn =>
    ({ c with turns := c.turns ++ [user_turn, turn] },
     Except.ok (turn, if turn.text = "" then [] else [turn.text]))

/-- The non-streaming path of `Chat._submit_turns` (src/chatlas/_chat.py lines
956-975) against a provider function: `chat_perform(stream=False,
turns=[*self._turns, user_turn], ...)` may raise (`Except.error`), which
propagates and leaves the history untouched. -/
def submit_turns_value (decode : String → Option JVal)
    (provider : List Turn → Except String ChatCompletion)
    (c : ChatState) (user_turn : Turn) (has_data_model : Bool) :
    ChatState × Except String (Turn × List String) :=
  match provider (c.turns ++ [user_turn]) with
  | Except.error e => (c, Except.error e)
  | Except.ok completion => submit_value_round decode completion c user_turn has_data_model

/-- The chunk-consumption loop of the streaming branch of
`Chat._submit_turns` (src/chatlas/_chat.py lines 939-945): for each chunk,
`stream_text` is extracted and yielded when truthy (non-empty), then the chunk
is merged into the running accumulation.  A stream element delivered as
`Except.error` models the iterator raising mid-stream, which aborts the loop
with that exception. -/
def consume_stream (chunks : List (Except String ChatCompletionChunk))
    (acc : Option ChatCompletionChunk) (outs : List String) :
    Except String (Option ChatCompletionChunk × List String) :=
  match chunks with
  | [] => Except.ok (acc, outs)
  | Except.error e :: _ => Except.error e
  | Except.ok chunk :: rest =>
    let outs2 :=
      match stream_text chunk with
      | some t => if t = "" then outs else outs ++ [t]
      | none => outs
    consume_stream rest (some (stream_merge_chunks acc chunk)) outs2

/-- The streaming path of `Chat._submit_turns` (src/chatlas/_chat.py lines
930-954 and 975) against a stub chunk stream: consume the stream, finalize via
`stream_turn`, and extend the history with `[user_turn, turn]`.  Any exception
(mid-stream or in finalization) propagates and leaves the history untouched. -/
def submit_turns_stream (decode : String → Option JVal)
    (chunks : List (Except String ChatCompletionChunk))
    (c : ChatState) (user_turn : Turn) (has_data_model : Bool) :
    ChatState × Except String (Turn × List String) :=
  match consume_stream chunks none [] with
  | Except.error e => (c, Except.error e)
  | Except.ok (result, outs) =>
    match stream_turn decode result has_data_model with
    | none => (c, Except.error "invalid accumulation")
    | some turn =>
      ({ c with turns := c.turns ++ [user_turn, turn] }, Except.ok (turn, outs))

/-- `Chat._invoke_tool` (src/chatlas/_chat.py lines 1075-1093): an absent tool
yields a ToolResult with the "Unknown tool" error; a raising invocation yields
a ToolResult carrying the stringified exception; otherwise the return value
becomes the value of the result. -/
def invoke_tool (func : Option ToolFunc) (arguments : JVal) (id_ : String) : Content :=
  match func with
  | none => Content.toolResult id_ none (some "Unknown tool")
  | some f =>
    match f arguments with
    | Except.ok result => Content.toolResult id_ (some result) none
    | Except.error e => Content.toolResult id_ none (some e)

/-- `Chat._invoke_tools` (src/chatlas/_chat.py lines 1041-1056): scan the last
contents of the last assistant turn in order, invoke one tool per ToolRequest, and
collect the results into one user Turn; `none` when there are no results. -/
def invoke_tools (c : ChatState) : Option Turn :=
  match get_last_turn c "assistant" with
  | none => none
  | some turn =>
    let results := turn.contents.filterMap fun x =>
      match x with
      | Content.toolRequest i n a => some (invoke_tool (lookupTool c.tools n) a i)
      | _ => none
    if results.isEmpty then none
    else some { role := "user", contents := results }

/-- `Chat._chat_impl` (src/chatlas/_chat.py lines 870-888), driven by a stub
provider that answers the successive `Requesting` transitions from a fixed
list of completions (non-streaming path).  Returns the final chat state and,
on normal termination, the number of provider rounds performed; exhausting the
stub while a tool turn is still pending is an error (the real loop would keep
requesting). -/
def chat_impl (decode : String → Option JVal) :
    List ChatCompletion → ChatState → Turn → ChatState × Except String Nat
  | [], c, _ => (c, Except.error "provider stub exhausted")
  | completion :: rest, c, user_turn =>
    match submit_value_round decode completion c user_turn false with
    | (c1, Except.error e) => (c1, Except.error e)
    | (c1, Except.ok _) =>
      match invoke_tools c1 with
      | none => (c1, Except.ok 1)
      | some toolTurn =>
        match chat_impl decode rest c1 toolTurn with
        | (c2, Except.ok n) => (c2, Except.ok (n + 1))
        | (c2, Except.error e) => (c2, Except.error e)

/-- The ValueError message of `Chat.extract_data` (src/chatlas/_chat.py lines
597-600), reporting the number of ContentJson items found. -/
def extract_data_msg (n : Nat) : String :=
  "Data extraction failed: " ++ toString n ++ " data results received."

/-- The ContentJson values of a turn, in content order (the `res` list of
`Chat.extract_data`, src/chatlas/_chat.py lines 592-595). -/
def jsonContents (t : Turn) : List JVal :=
  t.contents.filterMap fun x =>
    match x with
    | Content.json v => some v
    | _ => none

/-- The extraction step of `Chat.extract_data` (src/chatlas/_chat.py lines
589-603), applied after the submission: take the last assistant turn (the
`assert turn is not None` is an error when there is none), collect its
ContentJson items, fail with a count-reporting message unless exactly one was
found, and return its value. -/
def extract_data_result (c : ChatState) : Except String JVal :=
  match get_last_turn c "assistant" with
  | none => Except.error "assertion failed: turn is not None"
  | some turn =>
    match jsonContents turn with
    | [v] => Except.ok v
    | other => Except.error (extract_data_msg other.length)

/-- The system-turn invariant of the data model (spec section 3): at most one
system turn, and if present it is always first — equivalently, no turn after
the head has role "system". -/
def sysInv (ts : List Turn) : Prop :=
  ∀ t ∈ ts.drop 1, t.role ≠ "system"

/-- The ToolRequest contents of a turn as (id, name, arguments) triples, in
content order. -/
def turnToolRequests (t : Turn) : List (String × String × JVal) :=
  t.contents.filterMap fun x =>
    match x with
    | Content.toolRequest i n a => some (i, n, a)
    | _ => none

/-- The round-trip of the spec (section 8): read the full history including
the system prompt, remember the system prompt, replace the history by the
non-system suffix via `set_turns`, then restore the system prompt through its
setter.  Returns the final state plus the error raised by `set_turns`,
if any. -/
def round_trip (c : ChatState) : ChatState × Option String :=
  let history := get_turns c true
  let sp := system_prompt c
  let suffix :=
    match history with
    | t :: rest => if t.role == "system" then rest else t :: rest
    | [] => []
  match set_turns c suffix with
  | (c1, some e) => (c1, some e)
  | (c1, none) => (set_system_prompt c1 sp, none)

/-- A stub completion that requests one tool call (empty argument string, so
`_as_turn` produces a ToolRequest with empty arguments). -/
def toolCallCompletion : ChatCompletion :=
  { choices :=
      [{ message :=
           { content := none
             tool_calls := some [{ id := "call0", function := some { name := "f", arguments := "" } }] }
         finish_reason := some "tool_calls" }]
    usage := none }

/-- A stub completion with plain text content and no tool calls. -/
def doneCompletion : ChatCompletion :=
  { choices :=
      [{ message := { content := some "done", tool_calls := none }
         finish_reason := some "stop" }]
    usage := some (1, 2) }

/-- A single-chunk carrier of one streamed text piece. -/
def textChunk (piece : String) : ChatCompletionChunk :=
  { choices := [{ delta := { content := some piece, tool_calls := none }, finish_reason := none }]
    usage := none }

/-- The closing chunk of a stream: no text delta, only the finish reason and
the usage payload. -/
def finalChunk (fr : Option String) (usage : Option (Nat × Nat)) : ChatCompletionChunk :=
  { choices := [{ delta := { content := none, tool_calls := none }, finish_reason := fr }]
    usage := usage }

/-- The chunk stream delivering `pieces` one text delta per chunk, closed by a
final chunk carrying the finish reason and usage. -/
def streamOf (pieces : List String) (fr : Option String) (usage : Option (Nat × Nat)) :
    List (Except String ChatCompletionChunk) :=
  (pieces.map fun p => Except.ok (textChunk p)) ++ [Except.ok (finalChunk fr usage)]

/-- An empty chat: no turns, no registered tools. -/
def emptyChat : ChatState := { turns := [], tools := [] }

/-- A plain user turn used as concrete submission input. -/
def userTurnW : Turn := { role := "user", contents := [Content.text "hi"] }

/-- The assistant turn `_as_turn` produces from `doneCompletion`. -/
def doneTurn : Turn :=
  { role := "assistant", contents := [Content.text "done"]
    tokens := some (1, 2), finish_reason := some "stop" }

/-- The assistant turn `_as_turn` produces from `toolCallCompletion`. -/
def reqTurn : Turn :=
  { role := "assistant", contents := [Content.toolRequest "call0" "f" (JVal.obj [])]
    tokens := some (0, 0), finish_reason := some "tool_calls" }

/-- A tool function that returns normally. -/
def okF : ToolFunc := fun _ => Except.ok JVal.null

/-- A tool function that raises (stringified exception "boom"). -/
def errF : ToolFunc := fun _ => Except.error "boom"

/-- A chat whose system turn is not in the canonical single-text form: two
Text contents "a" and "b" (its text reads "ab"). -/
def cbad : ChatState :=
  { turns := [{ role := "system", contents := [Content.text "a", Content.text "b"] }]
    tools := [] }

/-- A well-formed chat: canonical system turn followed by a user turn. -/
def cgood : ChatState :=
  { turns := [systemTurn "be brief", { role := "user", contents := [Content.text "q"] }]
    tools := [] }

/-- An assistant turn holding exactly one ContentJson item. -/
def jsonTurn : Turn :=
  { role := "assistant", contents := [Content.json (JVal.num 7)] }

/-- The assistant turn `_as_turn` produces from a pure-text completion. -/
def textTurn (s : String) (fr : Option String) (usage : Option (Nat × Nat)) : Turn :=
  { role := "assistant", contents := [Content.text s]
    tokens := some (usage.getD (0, 0)), finish_reason := fr }

/-- What the streaming loop of `_submit_turns` emits for one chunk: its text
delta when present and truthy (non-empty), nothing otherwise. -/
def emitOf (ch : ChatCompletionChunk) : Option String :=
  match stream_text ch with
  | some t => if t = "" then none else some t
  | none => none

/-- The full text yielded while consuming a chunk stream, in delivery
order. -/
def streamEmitted (chunks : List ChatCompletionChunk) : List String :=
  chunks.filterMap emitOf

/-- An optional text field read as a string (absent text reads as empty). -/
def optText (mc : Option String) : String := mc.getD ""

/-- The completion `stream_turn` builds from a fully accumulated chunk dict:
the delta of the first choice moved into its message slot
(src/chatlas/_openai.py lines 338-344). -/
def completionOfChunk (d : ChatCompletionChunk) : ChatCompletion :=
  { choices :=
      match d.choices with
      | [] => []
      | ch :: rest =>
        { message := { content := ch.delta.content, tool_calls := ch.delta.tool_calls }
          finish_reason := ch.finish_reason } ::
        rest.map fun cc =>
          { message := { content := none, tool_calls := none }
            finish_reason := cc.finish_reason }
    usage := d.usage }

/-- A stand-in for `json.loads` on the structured-output body "42". -/
def numDecode : String → Option JVal := fun _ => some (JVal.num 42)

/-- The assistant turn produced from the structured-output response "42": one
ContentJson item and no text content. -/
def jsonOutTurn : Turn :=
  { role := "assistant", contents := [Content.json (JVal.num 42)]
    tokens := some (0, 0), finish_reason := none }

/-- A successful first-index search witnesses an element satisfying the
predicate. -/
theorem exists_of_findIdx?_eq_some {α : Type} {l : List α} {p : α → Bool} {i : Nat}
    (h : l.findIdx? p = some i) : ∃ x ∈ l, p x := by
  induction l generalizing i with
  | nil => simp [List.findIdx?] at h
  | cons x xs ih =>
    rw [List.findIdx?_cons] at h
    by_cases hp : p x
    · exact ⟨x, List.mem_cons_self x xs, hp⟩
    · simp [hp] at h
      obtain ⟨j, hj, -⟩ := h
      obtain ⟨y, hy, hpy⟩ := ih hj
      exact ⟨y, List.mem_cons_of_mem x hy, hpy⟩

/-- Every turn `_as_turn` produces carries the assistant role. -/
theorem as_turn_role (decode : String → Option JVal) (completion : ChatCompletion)
    (hdm : Bool) (t : Turn) (h : as_turn decode completion hdm = some t) :
    t.role = "assistant" := by
  simp only [as_turn] at h
  split at h
  · exact Option.noConfusion h
  · split at h
    · exact Option.noConfusion h
    · injection h with h2
      rw [← h2]

/-- After appending a user/assistant pair, the last assistant turn is the
appended assistant turn. -/
theorem get_last_turn_append (ts : List Turn) (tl : List (String × ToolFunc))
    (u a : Turn) (h : a.role = "assistant") :
    get_last_turn { turns := ts ++ [u, a], tools := tl } "assistant" = some a := by
  unfold get_last_turn
  simp [List.find?, h]

/-- The result list built by `_invoke_tools` is the image of the scanned
ToolRequests under one `_invoke_tool` call each, in scan order. -/
theorem filterMap_invoke (tools : List (String × ToolFunc)) (contents : List Content) :
    (contents.filterMap fun x =>
      match x with
      | Content.toolRequest i n a => some (invoke_tool (lookupTool tools n) a i)
      | _ => none)
    = (contents.filterMap fun x =>
        match x with
        | Content.toolRequest i n a => some ((i, n, a) : String × String × JVal)
        | _ => none).map
        fun r => invoke_tool (lookupTool tools r.2.1) r.2.2 r.1 := by
  induction contents with
  | nil => rfl
  | cons x rest ih => cases x <;> simp [List.filterMap_cons, ih]

/-- `_invoke_tools`, characterised through the ToolRequest triples of
the last assistant turn. -/
theorem invoke_tools_eq (c : ChatState) (turn : Turn)
    (h : get_last_turn c "assistant" = some turn) :
    invoke_tools c =
      if (turnToolRequests turn).isEmpty then none
      else some { role := "user"
                  contents := (turnToolRequests turn).map fun r =>
                    invoke_tool (lookupTool c.tools r.2.1) r.2.2 r.1 } := by
  simp only [invoke_tools, h, turnToolRequests, filterMap_invoke c.tools]
  rcases hreq : turn.contents.filterMap fun x =>
      match x with
      | Content.toolRequest i n a => some ((i, n, a) : String × String × JVal)
      | _ => none with _ | ⟨r, rest⟩ <;> simp [hreq]

/-- C3: tool invocation never propagates an exception.  An unknown tool yields
a ToolResult with value None and error "Unknown tool"; a raising function
yields value None and the stringified exception as error; otherwise the
return value is the value of the result and the error is None — always under
the id of the request. -/
theorem chat_invoke_tool_total (f : ToolFunc) (arguments : JVal) (i : String)
    (v : JVal) (e : String) :
    invoke_tool none arguments i = Content.toolResult i none (some "Unknown tool") ∧
    (f arguments = Except.error e →
      invoke_tool (some f) arguments i = Content.toolResult i none (some e)) ∧
    (f arguments = Except.ok v →
      invoke_tool (some f) arguments i = Content.toolResult i (some v) none) := by
  refine ⟨rfl, ?_, ?_⟩ <;> intro h <;> simp [invoke_tool, h]

/-- Witness for C3 at concrete inputs: a returning tool, a raising tool, and
an unknown tool. -/
theorem chat_invoke_tool_total_witness :
    invoke_tool (some okF) JVal.null "x" = Content.toolResult "x" (some JVal.null) none ∧
    invoke_tool (some errF) JVal.null "x" = Content.toolResult "x" none (some "boom") ∧
    invoke_tool none JVal.null "x" = Content.toolResult "x" none (some "Unknown tool") :=
  ⟨(chat_invoke_tool_total okF JVal.null "x" JVal.null "boom").2.2 rfl,
   (chat_invoke_tool_total errF JVal.null "x" JVal.null "boom").2.1 rfl,
   (chat_invoke_tool_total errF JVal.null "x" JVal.null "boom").1⟩

/-- C4: `_invoke_tools` scans the contents of the last assistant turn in order,
produces exactly one ToolResult per ToolRequest (collected in request order
into a single user Turn), and returns None exactly when the turn holds zero
ToolRequests. -/
theorem chat_invoke_tools_ordered (c : ChatState) (turn : Turn)
    (h : get_last_turn c "assistant" = some turn) :
    (invoke_tools c = none ↔ turnToolRequests turn = []) ∧
    (turnToolRequests turn ≠ [] →
      invoke_tools c = some
        { role := "user",
          contents := (turnToolRequests turn).map fun r =>
            invoke_tool (lookupTool c.tools r.2.1) r.2.2 r.1 }) := by
  rw [invoke_tools_eq c turn h]
  rcases hreq : turnToolRequests turn with _ | ⟨r, rest⟩ <;> simp [hreq]

/-- Witness for C4: a last assistant turn with one ToolRequest for an
unregistered tool produces one user Turn holding one ToolResult. -/
theorem chat_invoke_tools_ordered_witness :
    invoke_tools { turns := [reqTurn], tools := [] } =
      some { role := "user",
             contents := [Content.toolResult "call0" none (some "Unknown tool")] } := by
  have h := (chat_invoke_tools_ordered { turns := [reqTurn], tools := [] } reqTurn rfl).2
    (by simp [turnToolRequests, reqTurn])
  exact h

/-- C6: `set_turns` raises exactly when the given sequence contains a system
turn, the raised message cites the index of the first such turn, the turn
list is untouched on failure, and it becomes the given sequence on success. -/
theorem chat_set_turns_validation (c : ChatState) (ts : List Turn) :
    ((∃ t ∈ ts, t.role = "system") ↔ (set_turns c ts).2.isSome = true) ∧
    (∀ i, ts.findIdx? (fun t => t.role == "system") = some i →
      set_turns c ts = (c, some (set_turns_msg i))) ∧
    ((set_turns c ts).2.isSome = true → (set_turns c ts).1 = c) ∧
    ((set_turns c ts).2 = none → (set_turns c ts).1.turns = ts) := by
  cases hf : ts.findIdx? fun t => t.role == "system" with
  | some i =>
    refine ⟨⟨fun _ => by simp [set_turns, hf], fun _ => ?_⟩,
            fun j hj => ?_, fun _ => by simp [set_turns, hf], fun hc => ?_⟩
    · obtain ⟨x, hx, hpx⟩ := exists_of_findIdx?_eq_some hf
      exact ⟨x, hx, by simpa using hpx⟩
    · injection hj with hji
      subst hji
      simp [set_turns, hf]
    · simp [set_turns, hf] at hc
  | none =>
    have hall := List.findIdx?_eq_none_iff.mp hf
    refine ⟨⟨fun hex => ?_, fun hs => ?_⟩, fun j hj => ?_, fun hs => ?_,
            fun _ => by simp [set_turns, hf]⟩
    · obtain ⟨x, hx, hrole⟩ := hex
      have hx2 := hall x hx
      rw [hrole] at hx2
      simp at hx2
    · simp [set_turns, hf] at hs
    · exact Option.noConfusion hj
    · simp [set_turns, hf] at hs

/-- Witness for C6: a list with a system turn at index 1 is rejected citing
index 1 and leaves the chat untouched; a system-free list is installed. -/
theorem chat_set_turns_validation_witness :
    set_turns emptyChat [userTurnW, systemTurn "s"] = (emptyChat, some (set_turns_msg 1)) ∧
    (set_turns emptyChat [userTurnW]).1.turns = [userTurnW] :=
  ⟨(chat_set_turns_validation emptyChat [userTurnW, systemTurn "s"]).2.1 1 rfl,
   (chat_set_turns_validation emptyChat [userTurnW]).2.2.2 rfl⟩

/-- C10: `extract_data` returns the value of the single ContentJson content
of the final assistant turn, and otherwise fails with a message reporting the
number of ContentJson items found. -/
theorem chat_extract_data_count (c : ChatState) (turn : Turn)
    (h : get_last_turn c "assistant" = some turn) :
    (∀ v, jsonContents turn = [v] → extract_data_result c = Except.ok v) ∧
    ((jsonContents turn).length ≠ 1 →
      extract_data_result c = Except.error (extract_data_msg (jsonContents turn).length)) := by
  constructor
  · intro v hv
    simp [extract_data_result, h, hv]
  · intro hlen
    rcases hj : jsonContents turn with _ | ⟨v, _ | ⟨w, rest⟩⟩
    · simp [extract_data_result, h, hj]
    · rw [hj] at hlen
      simp at hlen
    · simp [extract_data_result, h, hj]

/-- Witness for C10: one ContentJson item yields its value; zero items fail
with the count 0 in the message. -/
theorem chat_extract_data_count_witness :
    extract_data_result { turns := [jsonTurn], tools := [] } = Except.ok (JVal.num 7) ∧
    extract_data_result { turns := [doneTurn], tools := [] } =
      Except.error (extract_data_msg 0) := by
  constructor
  · exact (chat_extract_data_count { turns := [jsonTurn], tools := [] } jsonTurn rfl).1
      (JVal.num 7) rfl
  · exact (chat_extract_data_count { turns := [doneTurn], tools := [] } doneTurn rfl).2
      (by simp [jsonContents, doneTurn])

/-- A successful non-streaming round appends exactly the user/assistant pair
and its assistant turn carries the assistant role. -/
theorem submit_value_round_ok (decode : String → Option JVal)
    (completion : ChatCompletion) (c : ChatState) (U : Turn) (dm : Bool)
    (c1 : ChatState) (A : Turn) (outs : List String)
    (h : submit_value_round decode completion c U dm = (c1, Except.ok (A, outs))) :
    c1.turns = c.turns ++ [U, A] ∧ A.role = "assistant" := by
  unfold submit_value_round at h
  cases hv : value_turn decode completion dm with
  | none => rw [hv] at h; simp at h
  | some turn =>
    rw [hv] at h
    simp only [Prod.mk.injEq, Except.ok.injEq] at h
    obtain ⟨h1, h2, -⟩ := h
    constructor
    · rw [← h1, ← h2]
    · rw [← h2]
      exact as_turn_role decode completion dm turn hv

/-- Every turn `stream_turn` produces carries the assistant role. -/
theorem stream_turn_role (decode : String → Option JVal)
    (completion : Option ChatCompletionChunk) (dm : Bool) (t : Turn)
    (h : stream_turn decode completion dm = some t) : t.role = "assistant" := by
  unfold stream_turn at h
  split at h
  · exact Option.noConfusion h
  · split at h
    · exact Option.noConfusion h
    · exact as_turn_role _ _ _ _ h

/-- A successful streaming round appends exactly the user/assistant pair and
its assistant turn carries the assistant role. -/
theorem submit_stream_round_ok (decode : String → Option JVal)
    (chunks : List (Except String ChatCompletionChunk)) (c : ChatState) (U : Turn)
    (dm : Bool) (c1 : ChatState) (A : Turn) (outs : List String)
    (h : submit_turns_stream decode chunks c U dm = (c1, Except.ok (A, outs))) :
    c1.turns = c.turns ++ [U, A] ∧ A.role = "assistant" := by
  unfold submit_turns_stream at h
  split at h
  · simp at h
  · rename_i result louts heq
    split at h
    · simp at h
    · rename_i turn hst
      simp only [Prod.mk.injEq, Except.ok.injEq] at h
      obtain ⟨h1, h2, -⟩ := h
      constructor
      · rw [← h1, ← h2]
      · rw [← h2]
        exact stream_turn_role decode result dm turn hst

/-- C1: a completed submission round (streaming or not) whose provider
response holds no ToolRequest contents appends exactly the pair
`[U, A]` — and nothing else — to the history, with `A.role = "assistant"`. -/
theorem chat_submit_appends_pair (decode : String → Option JVal)
    (provider : List Turn → Except String ChatCompletion)
    (chunks : List (Except String ChatCompletionChunk))
    (c : ChatState) (U : Turn) (dm : Bool) :
    (∀ c1 A outs, submit_turns_value decode provider c U dm = (c1, Except.ok (A, outs)) →
      turnToolRequests A = [] →
      c1.turns = c.turns ++ [U, A] ∧ A.role = "assistant") ∧
    (∀ c1 A outs, submit_turns_stream decode chunks c U dm = (c1, Except.ok (A, outs)) →
      turnToolRequests A = [] →
      c1.turns = c.turns ++ [U, A] ∧ A.role = "assistant") := by
  constructor
  · intro c1 A outs h _
    unfold submit_turns_value at h
    cases hp : provider (c.turns ++ [U]) with
    | error e => rw [hp] at h; simp at h
    | ok completion =>
      rw [hp] at h
      exact submit_value_round_ok decode completion c U dm c1 A outs h
  · intro c1 A outs h _
    exact submit_stream_round_ok decode chunks c U dm c1 A outs h

/-- Witness for C1: a concrete no-tool response appended once, in both the
non-streaming and the streaming path. -/
theorem chat_submit_appends_pair_witness :
    ((submit_turns_value (fun _ => none) (fun _ => Except.ok doneCompletion)
        emptyChat userTurnW false).1.turns
      = emptyChat.turns ++ [userTurnW, doneTurn] ∧ doneTurn.role = "assistant") ∧
    ((submit_turns_stream (fun _ => none) (streamOf ["done"] (some "stop") (some (1, 2)))
        emptyChat userTurnW false).1.turns
      = emptyChat.turns ++ [userTurnW, doneTurn] ∧ doneTurn.role = "assistant") :=
  ⟨(chat_submit_appends_pair (fun _ => none) (fun _ => Except.ok doneCompletion)
      (streamOf ["done"] (some "stop") (some (1, 2))) emptyChat userTurnW false).1
      { turns := [userTurnW, doneTurn], tools := [] } doneTurn ["done"] rfl rfl,
   (chat_submit_appends_pair (fun _ => none) (fun _ => Except.ok doneCompletion)
      (streamOf ["done"] (some "stop") (some (1, 2))) emptyChat userTurnW false).2
      { turns := [userTurnW, doneTurn], tools := [] } doneTurn ["done"] rfl rfl⟩

/-- Appending a non-system pair at the end preserves the system-turn
invariant. -/
theorem sysInv_append (ts : List Turn) (u a : Turn) (hts : sysInv ts)
    (hu : u.role ≠ "system") (ha : a.role ≠ "system") : sysInv (ts ++ [u, a]) := by
  cases ts with
  | nil =>
    intro t ht
    simp at ht
    rw [ht]
    exact ha
  | cons x rest =>
    intro t ht
    simp at ht
    rcases ht with h | h | h
    · exact hts t (by simpa using h)
    · rw [h]; exact hu
    · rw [h]; exact ha

/-- C2: every turn-list mutation preserves the invariant "at most one system
turn, and if present it is first": a successful `set_turns`, the
`system_prompt` setter, and the user/assistant append of a completed
submission round (non-streaming and streaming). -/
theorem chat_system_invariant_preserved (c : ChatState) (ts : List Turn)
    (v : Option String) (decode : String → Option JVal)
    (provider : List Turn → Except String ChatCompletion)
    (chunks : List (Except String ChatCompletionChunk)) (U : Turn) :
    (∀ c1, set_turns c ts = (c1, none) → sysInv c1.turns) ∧
    (sysInv c.turns → sysInv (set_system_prompt c v).turns) ∧
    (sysInv c.turns → U.role = "user" →
      ∀ c1 A outs, submit_turns_value decode provider c U false = (c1, Except.ok (A, outs)) →
        sysInv c1.turns) ∧
    (sysInv c.turns → U.role = "user" →
      ∀ c1 A outs, submit_turns_stream decode chunks c U false = (c1, Except.ok (A, outs)) →
        sysInv c1.turns) := by
  refine ⟨?_, ?_, ?_, ?_⟩
  · intro c1 h
    unfold set_turns at h
    cases hf : ts.findIdx? fun t => t.role == "system" with
    | some i => rw [hf] at h; simp at h
    | none =>
      rw [hf] at h
      have hall := List.findIdx?_eq_none_iff.mp hf
      simp only [Prod.mk.injEq] at h
      obtain ⟨h1, -⟩ := h
      intro t htmem
      have : t ∈ ts := by
        rw [← h1] at htmem
        exact List.mem_of_mem_drop htmem
      have := hall t this
      simpa using this
  · intro hinv
    unfold set_system_prompt
    cases hc : c.turns with
    | nil => cases v <;> simp [sysInv]
    | cons x rest =>
      have hrest : ∀ t ∈ rest, t.role ≠ "system" := by
        intro t htm
        exact hinv t (by simpa [hc] using htm)
      by_cases hx : x.role == "system"
      · cases v with
        | some s => simpa [hx] using hrest
        | none =>
          simp only [hx, if_true]
          intro t htm
          exact hrest t (List.mem_of_mem_drop htm)
      · cases v with
        | some s =>
          simp only [hx, if_false]
          intro t htm
          simp at htm
          rcases htm with h | h
          · rw [h]; simpa using hx
          · exact hrest t h
        | none =>
          simp only [hx, if_false]
          intro t htm
          simp at htm
          exact hrest t htm
  · intro hinv hU c1 A outs h
    unfold submit_turns_value at h
    cases hp : provider (c.turns ++ [U]) with
    | error e => rw [hp] at h; simp at h
    | ok completion =>
      rw [hp] at h
      obtain ⟨h1, h2⟩ := submit_value_round_ok decode completion c U false c1 A outs h
      rw [h1]
      exact sysInv_append c.turns U A hinv (by rw [hU]; simp) (by rw [h2]; simp)
  · intro hinv hU c1 A outs h
    obtain ⟨h1, h2⟩ := submit_stream_round_ok decode chunks c U false c1 A outs h
    rw [h1]
    exact sysInv_append c.turns U A hinv (by rw [hU]; simp) (by rw [h2]; simp)

/-- Witness for C2 at concrete inputs: each mutation applied to a concrete
invariant-satisfying chat keeps the invariant. -/
theorem chat_system_invariant_preserved_witness :
    sysInv (set_turns cgood [userTurnW]).1.turns ∧
    sysInv (set_system_prompt cgood (some "new prompt")).turns ∧
    sysInv (submit_turns_value (fun _ => none) (fun _ => Except.ok doneCompletion)
      cgood userTurnW false).1.turns ∧
    sysInv (submit_turns_stream (fun _ => none)
      (streamOf ["done"] (some "stop") (some (1, 2))) cgood userTurnW false).1.turns := by
  have hc := chat_system_invariant_preserved cgood [userTurnW] (some "new prompt")
    (fun _ => none) (fun _ => Except.ok doneCompletion)
    (streamOf ["done"] (some "stop") (some (1, 2))) userTurnW
  have hinv : sysInv cgood.turns := by
    intro t ht
    simp [cgood] at ht
    rw [ht]
    simp
  refine ⟨?_, hc.2.1 hinv, ?_, ?_⟩
  · exact hc.1 { cgood with turns := [userTurnW] } rfl
  · exact hc.2.2.1 hinv rfl
      { cgood with turns := cgood.turns ++ [userTurnW, doneTurn] } doneTurn ["done"] rfl
  · exact hc.2.2.2 hinv rfl
      { cgood with turns := cgood.turns ++ [userTurnW, doneTurn] } doneTurn ["done"] rfl

/-- A stream whose iterator raises after some well-formed chunks aborts
consumption with exactly that exception. -/
theorem consume_stream_error (pre : List ChatCompletionChunk) (e : String)
    (rest : List (Except String ChatCompletionChunk)) (acc : Option ChatCompletionChunk)
    (outs : List String) :
    consume_stream (pre.map Except.ok ++ Except.error e :: rest) acc outs
      = Except.error e := by
  induction pre generalizing acc outs with
  | nil => rfl
  | cons x xs ih =>
    rw [List.map_cons, List.cons_append]
    rw [consume_stream]
    exact ih _ _

/-- C7: a provider exception during a submission round — the completion
request itself, or the stream raising mid-consumption — propagates to the
caller unmodified, and the turn list is exactly what it was before the
round: no pending user turn and no partial assistant turn is appended. -/
theorem chat_provider_error_unmodified (decode : String → Option JVal)
    (provider : List Turn → Except String ChatCompletion)
    (c : ChatState) (U : Turn) (dm : Bool) (e : String)
    (pre : List ChatCompletionChunk) (rest : List (Except String ChatCompletionChunk)) :
    (provider (c.turns ++ [U]) = Except.error e →
      submit_turns_value decode provider c U dm = (c, Except.error e)) ∧
    submit_turns_stream decode (pre.map Except.ok ++ Except.error e :: rest) c U dm
      = (c, Except.error e) := by
  constructor
  · intro h
    unfold submit_turns_value
    rw [h]
  · unfold submit_turns_stream
    rw [consume_stream_error]

/-- Witness for C7: an authentication failure string surfaces unmodified and
leaves the concrete history untouched, in both paths. -/
theorem chat_provider_error_unmodified_witness :
    submit_turns_value (fun _ => none) (fun _ => Except.error "401 unauthorized")
      cgood userTurnW false = (cgood, Except.error "401 unauthorized") ∧
    submit_turns_stream (fun _ => none)
      ([textChunk "par"].map Except.ok ++ Except.error "connection reset" :: [])
      cgood userTurnW false = (cgood, Except.error "connection reset") :=
  ⟨(chat_provider_error_unmodified (fun _ => none) (fun _ => Except.error "401 unauthorized")
      cgood userTurnW false "401 unauthorized" [] []).1 rfl,
   (chat_provider_error_unmodified (fun _ => none) (fun _ => Except.error "connection reset")
      cgood userTurnW false "connection reset" [textChunk "par"] []).2⟩

/-- Restoring a system prompt on a system-free history inserts exactly the
canonical system turn at the front. -/
theorem set_system_prompt_no_system (ts : List Turn) (tl : List (String × ToolFunc))
    (s : String) (h : ∀ t ∈ ts, t.role ≠ "system") :
    set_system_prompt ⟨ts, tl⟩ (some s) = ⟨systemTurn s :: ts, tl⟩ := by
  unfold set_system_prompt
  cases ts with
  | nil => rfl
  | cons r rest =>
    have hr : (r.role == "system") = false := by
      simpa using h r (List.mem_cons_self r rest)
    simp [hr]

/-- The canonical system turn carries the system role. -/
theorem systemTurn_role (s : String) : (systemTurn s).role = "system" := rfl

/-- The text of the canonical system turn is its prompt string. -/
theorem systemTurn_text (s : String) : Turn.text (systemTurn s) = s := by
  simp [Turn.text, systemTurn, catStrings, String.append_empty]

/-- C9 counterexample: the round trip does not reproduce every chat state.
For the chat whose system turn holds its prompt as the two Text contents
"a" and "b", the restored system turn holds the single Text content "ab", so
the turn list differs from the original. -/
theorem chat_round_trip_counterexample :
    (round_trip cbad).1.turns ≠ cbad.turns := by
  intro h
  have e1 : (round_trip cbad).1.turns = [systemTurn "ab"] := rfl
  rw [e1] at h
  simp [cbad, systemTurn] at h

/-- C9 (amended): for every chat state satisfying the system-turn invariant
whose leading turn, when it has the system role, is the canonical single-text
system turn the `system_prompt` setter produces, the round trip — full
history read, `set_turns` on the non-system suffix, system prompt restored —
reproduces the original state exactly and raises nothing. -/
theorem chat_round_trip_canonical (c : ChatState) (hinv : sysInv c.turns)
    (hcanon : ∀ t, c.turns.head? = some t → t.role = "system" → ∃ s, t = systemTurn s) :
    round_trip c = (c, none) := by
  obtain ⟨ts, tl⟩ := c
  cases ts with
  | nil => rfl
  | cons t rest =>
    have hrest : ∀ x ∈ rest, x.role ≠ "system" := by
      intro x hx
      exact hinv x (by simpa using hx)
    by_cases ht : t.role = "system"
    · obtain ⟨s, hts⟩ := hcanon t rfl ht
      subst hts
      have hNone : rest.findIdx? (fun x => x.role == "system") = none := by
        rw [List.findIdx?_eq_none_iff]
        intro x hx
        simpa using hrest x hx
      unfold round_trip set_turns
      simp only [get_turns, system_prompt, systemTurn_role, systemTurn_text, hNone]
      simp [ht, hNone, set_system_prompt_no_system rest tl s hrest]
    · have htb : (t.role == "system") = false := by simpa using ht
      have hNoneRest : rest.findIdx? (fun x => x.role == "system") = none := by
        rw [List.findIdx?_eq_none_iff]
        intro x hx
        simpa using hrest x hx
      unfold round_trip set_turns set_system_prompt
      simp only [get_turns, system_prompt, htb]
      simp [ht, hNoneRest]

/-- Witness for the amended C9: a concrete chat with a canonical system turn
and one user turn round-trips to itself. -/
theorem chat_round_trip_canonical_witness : round_trip cgood = (cgood, none) := by
  have hinv : sysInv cgood.turns := by
    intro t ht
    simp [cgood] at ht
    rw [ht]
    simp
  refine chat_round_trip_canonical cgood hinv ?_
  intro t ht hrole
  simp [cgood] at ht
  exact ⟨"be brief", ht.symm⟩

/-- Any completion whose `_as_turn` conversion succeeds drives one value
round: the pair is appended and the turn text yielded when truthy. -/
theorem submit_round_of_as_turn (decode : String → Option JVal)
    (completion : ChatCompletion) (c : ChatState) (u : Turn) (hdm : Bool) (A : Turn)
    (hA : as_turn decode completion hdm = some A) :
    submit_value_round decode completion c u hdm
      = ({ c with turns := c.turns ++ [u, A] },
         Except.ok (A, if Turn.text A = "" then [] else [Turn.text A])) := by
  unfold submit_value_round value_turn
  rw [hA]

/-- After appending an assistant turn with at least one ToolRequest, the tool
scan returns one user turn holding one result per request, in order. -/
theorem invoke_tools_append_some (ts : List Turn) (tl : List (String × ToolFunc))
    (u A : Turn) (hrole : A.role = "assistant") (hne : turnToolRequests A ≠ []) :
    invoke_tools { turns := ts ++ [u, A], tools := tl }
      = some
          { role := "user",
            contents := (turnToolRequests A).map fun r =>
              invoke_tool (lookupTool tl r.2.1) r.2.2 r.1 } := by
  rw [invoke_tools_eq _ A (get_last_turn_append ts tl u A hrole)]
  rcases hl : turnToolRequests A with _ | ⟨r, rest⟩
  · exact absurd hl hne
  · simp [hl]

/-- After appending an assistant turn with no ToolRequests, the tool scan
returns none and the loop ends. -/
theorem invoke_tools_append_none (ts : List Turn) (tl : List (String × ToolFunc))
    (u A : Turn) (hrole : A.role = "assistant") (hnil : turnToolRequests A = []) :
    invoke_tools { turns := ts ++ [u, A], tools := tl } = none := by
  rw [invoke_tools_eq _ A (get_last_turn_append ts tl u A hrole)]
  rw [hnil]
  rfl

/-- C5: for every provider stub whose first N responses convert to assistant
turns containing ToolRequests and whose responses thereafter all convert to
turns containing none, the submission loop terminates and reaches Done after
exactly N+1 provider rounds, from every starting state and user turn. -/
theorem chat_tool_loop_rounds (decode : String → Option JVal)
    (reqs rest2 : List ChatCompletion) (c : ChatState) (u : Turn)
    (hreqs : ∀ comp ∈ reqs, ∃ t, as_turn decode comp false = some t ∧
      turnToolRequests t ≠ [])
    (hrest : ∀ comp ∈ rest2, ∃ t, as_turn decode comp false = some t ∧
      turnToolRequests t = [])
    (hne : rest2 ≠ []) :
    (chat_impl decode (reqs ++ rest2) c u).2 = Except.ok (reqs.length + 1) := by
  obtain ⟨finalc, extra, rfl⟩ := List.exists_cons_of_ne_nil hne
  obtain ⟨tf, htf, htfnil⟩ := hrest finalc (List.mem_cons_self finalc extra)
  revert hreqs
  induction reqs generalizing c u with
  | nil =>
    intro _
    rw [List.nil_append]
    have h1 := submit_round_of_as_turn decode finalc c u false tf htf
    have h2 := invoke_tools_append_none c.turns c.tools u tf
      (as_turn_role decode finalc false tf htf) htfnil
    simp [chat_impl, h1, h2]
  | cons comp rest ih =>
    intro hreqs
    obtain ⟨t, ht, htne⟩ := hreqs comp (List.mem_cons_self comp rest)
    have h1 := submit_round_of_as_turn decode comp c u false t ht
    have h2 := invoke_tools_append_some c.turns c.tools u t
      (as_turn_role decode comp false t ht) htne
    rw [List.cons_append]
    simp only [chat_impl, h1, h2]
    have ih2 := ih { c with turns := c.turns ++ [u, t] }
      { role := "user",
        contents := (turnToolRequests t).map fun r =>
          invoke_tool (lookupTool c.tools r.2.1) r.2.2 r.1 }
      (fun comp2 hc2 => hreqs comp2 (List.mem_cons_of_mem comp hc2))
    cases hrec : chat_impl decode (rest ++ finalc :: extra)
        { c with turns := c.turns ++ [u, t] }
        { role := "user",
          contents := (turnToolRequests t).map fun r =>
            invoke_tool (lookupTool c.tools r.2.1) r.2.2 r.1 } with
    | mk c2 r =>
      rw [hrec] at ih2
      simp only at ih2
      rw [ih2]
      simp

/-- Witness for C5: a stub with one tool-requesting response then one
request-free response drives exactly two provider rounds. -/
theorem chat_tool_loop_rounds_witness :
    (chat_impl (fun _ => none) ([toolCallCompletion] ++ [doneCompletion])
      emptyChat userTurnW).2 = Except.ok 2 := by
  have h := chat_tool_loop_rounds (fun _ => none) [toolCallCompletion] [doneCompletion]
    emptyChat userTurnW
    (by
      intro comp hc
      rw [List.mem_singleton] at hc
      subst hc
      exact ⟨reqTurn, rfl, by simp [turnToolRequests, reqTurn]⟩)
    (by
      intro comp hc
      rw [List.mem_singleton] at hc
      subst hc
      exact ⟨doneTurn, rfl, rfl⟩)
    (by simp)
  simpa using h

/-- The emitted pieces of a stream, unfolded one chunk. -/
theorem streamEmitted_cons (ch : ChatCompletionChunk) (rest : List ChatCompletionChunk) :
    streamEmitted (ch :: rest) = (emitOf ch).toList ++ streamEmitted rest := by
  unfold streamEmitted
  rw [List.filterMap_cons]
  cases emitOf ch <;> simp

/-- `stream_turn` on an accumulated dict is exactly `_as_turn` on the
corresponding completion with the delta moved into the message slot. -/
theorem stream_turn_eq_as_turn (decode : String → Option JVal)
    (d : ChatCompletionChunk) (hdm : Bool) :
    stream_turn decode (some d) hdm = as_turn decode (completionOfChunk d) hdm := by
  obtain ⟨chs, us⟩ := d
  cases chs <;> rfl

/-- Consuming an all-ok chunk stream folds the chunks into the accumulation
and appends exactly the truthy text deltas, in delivery order. -/
theorem consume_stream_all_ok (chunks : List ChatCompletionChunk)
    (d : ChatCompletionChunk) (outs : List String) :
    consume_stream (chunks.map Except.ok) (some d) outs
      = Except.ok (some (chunks.foldl merge_dicts d), outs ++ streamEmitted chunks) := by
  induction chunks generalizing d outs with
  | nil => simp [consume_stream, streamEmitted]
  | cons ch rest ih =>
    cases hst : stream_text ch with
    | none =>
      have he : emitOf ch = none := by simp [emitOf, hst]
      simp [consume_stream, hst, stream_merge_chunks, ih, streamEmitted_cons, he,
        List.foldl_cons]
    | some t =>
      by_cases htt : t = ""
      · have he : emitOf ch = none := by simp [emitOf, hst, htt]
        simp [consume_stream, hst, htt, stream_merge_chunks, ih, streamEmitted_cons, he,
          List.foldl_cons]
      · have he : emitOf ch = some t := by simp [emitOf, hst, htt]
        simp [consume_stream, hst, htt, stream_merge_chunks, ih, streamEmitted_cons, he,
          List.foldl_cons]

/-- Consuming a nonempty all-ok chunk stream from the initial None
accumulation. -/
theorem consume_stream_from_none (ch0 : ChatCompletionChunk)
    (chunks : List ChatCompletionChunk) :
    consume_stream ((ch0 :: chunks).map Except.ok) none []
      = Except.ok (some (chunks.foldl merge_dicts ch0), streamEmitted (ch0 :: chunks)) := by
  cases hst : stream_text ch0 with
  | none =>
    have he : emitOf ch0 = none := by simp [emitOf, hst]
    simp [consume_stream, hst, stream_merge_chunks, consume_stream_all_ok,
      streamEmitted_cons, he]
  | some t =>
    by_cases htt : t = ""
    · have he : emitOf ch0 = none := by simp [emitOf, hst, htt]
      simp [consume_stream, hst, htt, stream_merge_chunks, consume_stream_all_ok,
        streamEmitted_cons, he]
    · have he : emitOf ch0 = some t := by simp [emitOf, hst, htt]
      simp [consume_stream, hst, htt, stream_merge_chunks, consume_stream_all_ok,
        streamEmitted_cons, he]

/-- The streaming path of `_submit_turns` over any nonempty all-ok chunk
delivery, in closed form through the accumulated dict. -/
theorem submit_stream_of_as_turn (decode : String → Option JVal) (c : ChatState)
    (U : Turn) (hdm : Bool) (ch0 : ChatCompletionChunk)
    (chunks : List ChatCompletionChunk) (A : Turn)
    (hA : as_turn decode (completionOfChunk (chunks.foldl merge_dicts ch0)) hdm = some A) :
    submit_turns_stream decode ((ch0 :: chunks).map Except.ok) c U hdm
      = ({ c with turns := c.turns ++ [U, A] },
         Except.ok (A, streamEmitted (ch0 :: chunks))) := by
  unfold submit_turns_stream
  rw [consume_stream_from_none]
  simp only [stream_turn_eq_as_turn, hA]

/-- The non-streaming path of `_submit_turns` on a fixed response whose
`_as_turn` conversion succeeds. -/
theorem submit_value_of_as_turn (decode : String → Option JVal)
    (comp : ChatCompletion) (c : ChatState) (U : Turn) (hdm : Bool) (A : Turn)
    (hA : as_turn decode comp hdm = some A) :
    submit_turns_value decode (fun _ => Except.ok comp) c U hdm
      = ({ c with turns := c.turns ++ [U, A] },
         Except.ok (A, if Turn.text A = "" then [] else [Turn.text A])) := by
  unfold submit_turns_value
  exact submit_round_of_as_turn decode comp c U hdm A hA

/-- Merging two chunk dicts concatenates their head text deltas, read as
strings. -/
theorem optText_merge (a b : ChatCompletionChunk) :
    optText (stream_text (merge_dicts a b))
      = optText (stream_text a) ++ optText (stream_text b) := by
  obtain ⟨achs, aus⟩ := a
  obtain ⟨bchs, bus⟩ := b
  cases achs with
  | nil =>
    cases bchs with
    | nil => rfl
    | cons bch brest =>
      simp [merge_dicts, stream_text, mergeZip, optText, String.empty_append]
  | cons ach arest =>
    cases bchs with
    | nil =>
      simp [merge_dicts, stream_text, mergeZip, optText, String.append_empty]
    | cons bch brest =>
      simp only [merge_dicts, stream_text, mergeZip, mergeChunkChoice, mergeDelta]
      cases hac : ach.delta.content <;> cases hbc : bch.delta.content <;>
        simp [mergeTextField, hac, hbc, optText, String.append_empty, String.empty_append]

/-- One emitted chunk piece concatenates to the text delta of the chunk. -/
theorem catStrings_emitOf (ch : ChatCompletionChunk) :
    catStrings (emitOf ch).toList = optText (stream_text ch) := by
  unfold emitOf
  cases hst : stream_text ch with
  | none => rfl
  | some t =>
    by_cases htt : t = ""
    · simp [htt, optText, catStrings]
    · simp [htt, optText, catStrings, String.append_empty]

/-- String concatenation distributes over list append. -/
theorem catStrings_append (l1 l2 : List String) :
    catStrings (l1 ++ l2) = catStrings l1 ++ catStrings l2 := by
  induction l1 with
  | nil => simp [catStrings, String.empty_append]
  | cons x xs ih => simp [catStrings, ih, String.append_assoc]

/-- The head text delta of the fold of a chunk stream is the initial delta
followed by everything the stream emits: the streamed text is determined by
the accumulated content alone. -/
theorem optText_foldl (chunks : List ChatCompletionChunk) (d : ChatCompletionChunk) :
    optText (stream_text (chunks.foldl merge_dicts d))
      = optText (stream_text d) ++ catStrings (streamEmitted chunks) := by
  induction chunks generalizing d with
  | nil => simp [streamEmitted, catStrings, String.append_empty]
  | cons ch rest ih =>
    rw [List.foldl_cons, ih (merge_dicts d ch), optText_merge]
    rw [streamEmitted_cons, catStrings_append, catStrings_emitOf]
    rw [String.append_assoc]

/-- ToolRequest contents built from tool calls carry no text. -/
theorem toolContents_no_text (decode : String → Option JVal) (calls : List ToolCall) :
    ((calls.filterMap (toolCallContent decode)).filterMap fun cc =>
      match cc with
      | Content.text s => some s
      | _ => none) = [] := by
  induction calls with
  | nil => rfl
  | cons call rest ih =>
    rw [List.filterMap_cons]
    cases hf : call.function with
    | none => simpa [toolCallContent, hf] using ih
    | some f => simpa [toolCallContent, hf, List.filterMap_cons] using ih

/-- With no data model, the text of the `_as_turn` result on an accumulated
chunk dict is exactly its head text delta (tool requests contribute no
text). -/
theorem as_turn_text_chunk (decode : String → Option JVal) (d : ChatCompletionChunk)
    (A : Turn) (hA : as_turn decode (completionOfChunk d) false = some A) :
    Turn.text A = optText (stream_text d) := by
  obtain ⟨chs, us⟩ := d
  cases chs with
  | nil => simp [as_turn, completionOfChunk] at hA
  | cons ch rest =>
    obtain ⟨⟨dc, dtc⟩, fr⟩ := ch
    cases dc with
    | none =>
      cases dtc with
      | none =>
        simp only [as_turn, completionOfChunk] at hA
        injection hA with h
        rw [← h]
        rfl
      | some calls =>
        simp only [as_turn, completionOfChunk] at hA
        injection hA with h
        rw [← h]
        simp [Turn.text, stream_text, optText, toolContents_no_text, catStrings]
    | some ctext =>
      cases dtc with
      | none =>
        simp only [as_turn, completionOfChunk] at hA
        injection hA with h
        rw [← h]
        simp [Turn.text, stream_text, optText, catStrings, String.append_empty]
      | some calls =>
        simp only [as_turn, completionOfChunk] at hA
        injection hA with h
        rw [← h]
        simp [Turn.text, stream_text, optText, catStrings, String.append_empty,
          List.filterMap_append, toolContents_no_text]

/-- C8 counterexample to the claim as stated: under a structured-output
schema, the fixed response body "42" submitted with stream=True yields the
raw text "42" while the identical fixed response submitted with stream=False
yields no text — the appended assistant Turn is identical but the
concatenated text output is not. -/
theorem chat_stream_value_text_counterexample :
    submit_turns_stream numDecode [Except.ok (textChunk "42")] emptyChat userTurnW true
      = ({ emptyChat with turns := [userTurnW, jsonOutTurn] },
         Except.ok (jsonOutTurn, ["42"])) ∧
    submit_turns_value numDecode (fun _ => Except.ok (completionOfChunk (textChunk "42")))
        emptyChat userTurnW true
      = ({ emptyChat with turns := [userTurnW, jsonOutTurn] },
         Except.ok (jsonOutTurn, [])) ∧
    catStrings ["42"] ≠ catStrings [] :=
  ⟨rfl, rfl, by decide⟩

/-- C8 (amended): for every fixed provider response content — text, tool
calls, or structured output — and every delivery of it as one or more chunks,
the streaming submission (merged via `stream_merge_chunks`, finalized via
`stream_turn`) and the non-streaming submission (finalized via `value_turn`)
append the identical final assistant Turn and identical history; the
concatenated streamed text is determined by the accumulated content alone, so
any two chunked deliveries of the same content yield identical text; and
whenever no structured-output schema is in play the non-streaming text output
is identical as well. -/
theorem chat_stream_value_equiv (decode : String → Option JVal) (c : ChatState)
    (U : Turn) (hdm : Bool) (ch0 : ChatCompletionChunk)
    (chunks : List ChatCompletionChunk) (A : Turn)
    (hA : as_turn decode (completionOfChunk (chunks.foldl merge_dicts ch0)) hdm = some A) :
    submit_turns_stream decode ((ch0 :: chunks).map Except.ok) c U hdm
      = ({ c with turns := c.turns ++ [U, A] },
         Except.ok (A, streamEmitted (ch0 :: chunks))) ∧
    submit_turns_value decode
        (fun _ => Except.ok (completionOfChunk (chunks.foldl merge_dicts ch0))) c U hdm
      = ({ c with turns := c.turns ++ [U, A] },
         Except.ok (A, if Turn.text A = "" then [] else [Turn.text A])) ∧
    catStrings (streamEmitted (ch0 :: chunks))
      = optText (stream_text (chunks.foldl merge_dicts ch0)) ∧
    (hdm = false →
      catStrings (if Turn.text A = "" then [] else [Turn.text A])
        = optText (stream_text (chunks.foldl merge_dicts ch0))) := by
  refine ⟨submit_stream_of_as_turn decode c U hdm ch0 chunks A hA,
          submit_value_of_as_turn decode _ c U hdm A hA, ?_, ?_⟩
  · rw [optText_foldl]
    rw [streamEmitted_cons, catStrings_append, catStrings_emitOf]
  · intro hfalse
    subst hfalse
    have htext := as_turn_text_chunk decode (chunks.foldl merge_dicts ch0) A hA
    by_cases hz : Turn.text A = ""
    · rw [if_pos hz, ← htext, hz]
      rfl
    · rw [if_neg hz, ← htext]
      simp [catStrings, String.append_empty]

/-- Witness for the amended C8: "hello" delivered as two text chunks plus a
closing chunk, against the same fixed response non-streamed — identical Turn,
identical text. -/
theorem chat_stream_value_equiv_witness :
    submit_turns_stream (fun _ => none)
        ([textChunk "he", textChunk "llo", finalChunk (some "stop") (some (3, 4))].map
          Except.ok) emptyChat userTurnW false
      = ({ emptyChat with
           turns := [userTurnW, textTurn "hello" (some "stop") (some (3, 4))] },
         Except.ok (textTurn "hello" (some "stop") (some (3, 4)), ["he", "llo"])) ∧
    submit_turns_value (fun _ => none)
        (fun _ => Except.ok (completionOfChunk
          ([textChunk "llo", finalChunk (some "stop") (some (3, 4))].foldl merge_dicts
            (textChunk "he")))) emptyChat userTurnW false
      = ({ emptyChat with
           turns := [userTurnW, textTurn "hello" (some "stop") (some (3, 4))] },
         Except.ok (textTurn "hello" (some "stop") (some (3, 4)), ["hello"])) := by
  have h := chat_stream_value_equiv (fun _ => none) emptyChat userTurnW false
    (textChunk "he") [textChunk "llo", finalChunk (some "stop") (some (3, 4))]
    (textTurn "hello" (some "stop") (some (3, 4))) rfl
  exact ⟨h.1, h.2.1⟩

end Chatlas
